import Mathlib

/-!
Shallow embedding of `src/modules.c` (kunwind): the per-process unwind-module
registry, the page-mapping module resolver `init_kunwind_stp_module`, the two
population routines (`add_module` scanning callback, `init_modules_from_proc_info`
hint-driven), and the RCU-protected instruction-pointer cache
(`unw_cache_find_entry` / `unw_cache_add_entry` / `unw_cache_clear`).

Machine integers are modelled as `Nat` (addresses, sizes) and `Int` (C `int`
result codes); `unsigned long` subtraction wraps modulo `2 ^ 64`.  External
kernel services (`find_vma`, `__get_user_pages_unlocked`, `vmap`, `get_user`,
`eh_frame_from_hdr`, allocation success) are modelled as an explicit
environment record whose fields give each call's outcome for the one module
resolution being modelled.  RCU primitives are modelled by an explicit state
carrying the visible entries, the deferred-free queue and an event trace.
-/

/-- Width modulus of the C `unsigned long` type on the 64-bit target. -/
def ULONG_MOD : Nat := 2 ^ 64

/-- C `unsigned long` subtraction `a - b`, wrapping modulo `2 ^ 64`
(used for `section.offset = ubuf - vma->vm_start`, which can underflow when
`find_vma` returns a region above `ubuf`). -/
def usub (a b : Nat) : Nat := (a + (ULONG_MOD - b % ULONG_MOD)) % ULONG_MOD

/-- `-ENOMEM` magnitude (`errno` 12). -/
def ENOMEM : Int := 12

/-- `-EFAULT` magnitude (`errno` 14), the error `get_user` produces on fault. -/
def EFAULT : Int := 14

/-! ## Cache data model (`struct unw_cache_entry`, `struct unw_cache_key`) -/

/-- `struct tdep_frame`: the frame descriptor cached per instruction pointer.
Beyond `pc`, the descriptor's remaining machine state is opaque to
`modules.c`; it is modelled as a single `rest` word. -/
structure TdepFrame where
  pc : Nat
  rest : Nat
deriving DecidableEq, Inhabited

/-- `struct unw_cache_entry`: a frame descriptor linked into the per-process
hash table.  `slot` records the jhash bucket the entry was linked under by
`hash_add_rcu` (the C entry's position in `mods->unw_cache`). -/
structure UnwCacheEntry where
  frame : TdepFrame
  slot : Nat
deriving DecidableEq, Inhabited

/-- `unw_cache_find_entry`: `hash_for_each_possible_rcu` walks exactly the
bucket `jhash(key)` of the table (the entries whose recorded `slot` matches)
in chain order and returns the first entry with `key->pc == entry->frame.pc`,
or NULL (`none`).  The hash function `h` (jhash composed with the bucket
reduction) is an external parameter. -/
def unw_cache_find_entry (h : Nat → Nat) (cache : List UnwCacheEntry)
    (keyPc : Nat) : Option UnwCacheEntry :=
  (cache.filter (fun e => e.slot == h keyPc)).find? (fun e => keyPc == e.frame.pc)

/-- `unw_cache_add_entry`: look the key up first; when an entry for the pc is
already present the call returns without touching the table.  Otherwise
`kzalloc` a fresh entry (allocation failure, `allocOk = false`, silently
skips the insertion) and `hash_add_rcu` it at the head of bucket
`h frame.pc`. -/
def unw_cache_add_entry (h : Nat → Nat) (allocOk : Bool)
    (cache : List UnwCacheEntry) (frame : TdepFrame) : List UnwCacheEntry :=
  match unw_cache_find_entry h cache frame.pc with
  | some _ => cache
  | none =>
    if allocOk then UnwCacheEntry.mk frame (h frame.pc) :: cache else cache

/-! ## RCU model for `unw_cache_clear` -/

/-- Observable events of the RCU reclamation discipline: `unlink` is
`hash_del_rcu` making an entry invisible to new readers, `gracePeriod` is a
full reader drain (`synchronize_rcu` completing), `free` is the
`unw_cache_entry_rcu_free` callback (`kfree`) running for an entry. -/
inductive RcuEvent where
  | unlink (pc : Nat)
  | gracePeriod
  | free (pc : Nat)
deriving DecidableEq

/-- State threaded through the RCU cache operations: the entries visible to
readers, the deferred-free queue filled by `call_rcu`, and the event trace
accumulated so far. -/
structure RcuState where
  visible : List UnwCacheEntry
  pending : List UnwCacheEntry
  trace : List RcuEvent
deriving DecidableEq

/-- Removal of one entry (the specific node) from the visible list, mirroring
`hash_del_rcu` unlinking one `hlist` node. -/
def eraseEntry : List UnwCacheEntry → UnwCacheEntry → List UnwCacheEntry
  | [], _ => []
  | x :: xs, e => if x = e then xs else x :: eraseEntry xs e

/-- `hash_del_rcu`: the entry disappears from readers' view immediately and
the trace records the unlink. -/
def hash_del_rcu (st : RcuState) (e : UnwCacheEntry) : RcuState :=
  RcuState.mk (eraseEntry st.visible e) st.pending
    (st.trace ++ [RcuEvent.unlink e.frame.pc])

/-- `call_rcu(&entry->rcu, unw_cache_entry_rcu_free)`: the free is deferred
until after a grace period; the entry joins the pending queue. -/
def call_rcu (st : RcuState) (e : UnwCacheEntry) : RcuState :=
  RcuState.mk st.visible (st.pending ++ [e]) st.trace

/-- `synchronize_rcu`: a full grace period elapses (every reader that was in
flight at the earlier unlinks has drained), after which the queued
`call_rcu` callbacks may run and free their entries. -/
def synchronize_rcu (st : RcuState) : RcuState :=
  RcuState.mk st.visible []
    (st.trace ++ RcuEvent.gracePeriod :: st.pending.map (fun e => RcuEvent.free e.frame.pc))

/-- `unw_cache_clear`: `hash_for_each_rcu` over every bucket unlinks each
entry and defers its free with `call_rcu`; `synchronize_rcu` then waits for
all in-flight readers before the function returns. -/
def unw_cache_clear (cache : List UnwCacheEntry) : RcuState :=
  synchronize_rcu
    (cache.foldl (fun st e => call_rcu (hash_del_rcu st e) e)
      (RcuState.mk cache [] []))

/-! ## Module and registry data model -/

/-- A virtual memory area of the target process (`struct vm_area_struct`
projection): `[vm_start, vm_end)`. -/
structure Vma where
  vm_start : Nat
  vm_end : Nat
deriving DecidableEq, Inhabited

/-- `PAGE_SIZE` of the target. -/
def PAGE_SIZE : Nat := 4096

/-- Kernel `vma_pages`: number of pages spanned by the area. -/
def vma_pages (v : Vma) : Nat := (v.vm_end - v.vm_start) / PAGE_SIZE

/-- Kernel `find_vma(mm, addr)`: the lowest-ending area with
`addr < vm_end`, or NULL (`none`).  The list models the task's areas in
ascending address order.  Note the returned area need not cover `addr`
(`vm_start` may exceed it). -/
def find_vma (vmas : List Vma) (addr : Nat) : Option Vma :=
  vmas.find? (fun v => addr < v.vm_end)

/-- `struct unw_section`: one view into the mapped image (`ubuf` the
process-relative address, `size` in bytes, `offset` of the view inside the
vmapped region; the kernel pointer `kbuf = elf_vmap + offset` is represented
by `offset`). -/
structure UnwSection where
  ubuf : Nat
  size : Nat
  offset : Nat
deriving DecidableEq, Inhabited

/-- `struct kunwind_module`: one resolved image.  `base` is
`elf_vma->vm_start`, `npages` the pinned-and-mapped page count, the two
sections are the unwind header and table views. -/
structure KunwindModule where
  base : Nat
  npages : Nat
  ehf_hdr : UnwSection
  ehf : UnwSection
  is_dynamic : Bool
deriving DecidableEq, Inhabited

/-- `struct kunwind_proc_modules`: the per-process registry — module list,
instruction-pointer cache and compat flag. -/
structure KunwindProcModules where
  stp_modules : List KunwindModule
  unw_cache : List UnwCacheEntry
  compat : Bool
deriving DecidableEq, Inhabited

/-- `init_proc_unwind_info`: zero the structure, init the module list head,
record the compat flag.  (The C `-EINVAL` branch guards a NULL destination
pointer, which has no counterpart for a by-value registry.) -/
def init_proc_unwind_info (compat : Bool) : KunwindProcModules :=
  KunwindProcModules.mk [] [] compat

/-- `struct load_info`: location hints for one image (unwind-header address
and size are mandatory; table address and size optional, 0 meaning absent). -/
structure LoadInfo where
  obj_addr : Nat
  eh_frame_hdr_ubuf : Nat
  eh_frame_hdr_size : Nat
  eh_frame_addr : Nat
  eh_frame_size : Nat
  dynamic : Bool
deriving DecidableEq, Inhabited

/-- Outcomes of the external kernel services consumed by one run of
`init_kunwind_stp_module`: the task's memory areas, whether the page-array
`kmalloc` succeeds, the `__get_user_pages_unlocked` return value, whether
`vmap` succeeds, the `eh_frame_from_hdr` locator result code and (on its
success) the table section it writes, whether `get_user` faults, the word it
reads directly from target memory, and the word visible through the fresh
mapping at the header offset. -/
structure Env where
  vmas : List Vma
  kmalloc_pages_ok : Bool
  gup_result : Int
  vmap_ok : Bool
  ehf_locator_res : Int
  ehf_locator_section : UnwSection
  get_user_fault : Bool
  get_user_word : Nat
  mapped_word : Nat
deriving DecidableEq, Inhabited

/-- Resource ledger of one `init_kunwind_stp_module` run: page-descriptor
arrays `kmalloc`ed / `kfree`d, pages pinned / `put_page`d, regions `vmap`ed /
`vunmap`ed. -/
structure ResLog where
  descAlloc : Nat
  descFree : Nat
  pinned : Nat
  put : Nat
  vmapped : Nat
  vunmapped : Nat
deriving DecidableEq, Inhabited

/-- Result of `init_kunwind_stp_module`: the returned C `int` together with
the `mod` output structure as written by the function (fields the run never
wrote keep their `default` zero value), or `crash` for the undefined behavior
of dereferencing the NULL `find_vma` result in `vma_pages`. -/
inductive InitOutcome where
  | ret (res : Int) (mod : KunwindModule)
  | crash
deriving DecidableEq, Inhabited

/-- `init_kunwind_stp_module`, line for line:
`find_vma` (result dereferenced unchecked), page-array `kmalloc`
(`-ENOMEM` on failure), `__get_user_pages_unlocked` (negative result fails;
otherwise `npages = res`, pinning at most the requested count), `vmap`
(failure jumps to `out_put_pages` with `res` still holding the nonnegative
pin count), section setup (explicit table location when both hint fields are
nonzero, else the `eh_frame_from_hdr` locator whose nonzero result fails),
then the mapping probe: `get_user` of the first header word (fault fails)
compared against the word seen through the mapping; on mismatch the code
warns and jumps to `out_vunmap` with `res` still 0, releasing everything yet
returning 0. -/
def init_kunwind_stp_module (env : Env) (linfo : LoadInfo) (compat : Bool) :
    InitOutcome × ResLog :=
  match find_vma env.vmas linfo.eh_frame_hdr_ubuf with
  | none => (InitOutcome.crash, ResLog.mk 0 0 0 0 0 0)
  | some vma =>
    let npages := vma_pages vma
    if env.kmalloc_pages_ok = false then
      (InitOutcome.ret (-ENOMEM) default, ResLog.mk 0 0 0 0 0 0)
    else if env.gup_result < 0 then
      (InitOutcome.ret env.gup_result default, ResLog.mk 1 1 0 0 0 0)
    else
      let npinned := min npages env.gup_result.toNat
      if env.vmap_ok = false then
        (InitOutcome.ret env.gup_result default,
          ResLog.mk 1 1 npinned npinned 0 0)
      else
        let ehfHdr : UnwSection :=
          UnwSection.mk linfo.eh_frame_hdr_ubuf linfo.eh_frame_hdr_size
            (usub linfo.eh_frame_hdr_ubuf vma.vm_start)
        let ehfStep : Except Int UnwSection :=
          if linfo.eh_frame_addr ≠ 0 ∧ linfo.eh_frame_size ≠ 0 then
            Except.ok (UnwSection.mk linfo.eh_frame_addr linfo.eh_frame_size
              (usub linfo.eh_frame_addr vma.vm_start))
          else if env.ehf_locator_res ≠ 0 then
            Except.error env.ehf_locator_res
          else
            Except.ok env.ehf_locator_section
        match ehfStep with
        | Except.error res =>
          (InitOutcome.ret res default, ResLog.mk 1 1 npinned npinned 1 1)
        | Except.ok ehf =>
          let mod : KunwindModule :=
            KunwindModule.mk vma.vm_start npinned ehfHdr ehf linfo.dynamic
          if env.get_user_fault then
            (InitOutcome.ret (-EFAULT) mod, ResLog.mk 1 1 npinned npinned 1 1)
          else if env.get_user_word ≠ env.mapped_word then
            (InitOutcome.ret 0 mod, ResLog.mk 1 1 npinned npinned 1 1)
          else
            (InitOutcome.ret 0 mod, ResLog.mk 1 0 npinned 0 1 0)

/-- Projection of the result code / module of one resolver run (the `err` and
`mod` values a caller of `init_kunwind_stp_module` observes). -/
def initOutcome (compat : Bool) (p : LoadInfo × Env) : InitOutcome :=
  (init_kunwind_stp_module p.2 p.1 compat).1

/-! ## Scan-based population (`add_module` callback, `init_modules_from_task`) -/

/-- One `Elf64_Phdr` as read by `add_module`. -/
structure PhdrEntry where
  p_type : Nat
  p_vaddr : Nat
  p_memsz : Nat
deriving DecidableEq, Inhabited

/-- `PT_DYNAMIC` program-header type. -/
def PT_DYNAMIC : Nat := 2

/-- `PT_GNU_EH_FRAME` program-header type. -/
def PT_GNU_EH_FRAME : Nat := 0x6474e550

/-- `struct phdr_info`: one enumerated image — its load address and its
program-header array. -/
structure PhdrInfo where
  addr : Nat
  phdr : List PhdrEntry
deriving DecidableEq, Inhabited

/-- The header scan loop of `add_module`: remember the most recent
`PT_GNU_EH_FRAME` entry, set the dynamic flag on `PT_DYNAMIC`, and break as
soon as both have been seen. -/
def scanPhdrs : List PhdrEntry → Option PhdrEntry → Bool → Option PhdrEntry × Bool
  | [], eh, dyn => (eh, dyn)
  | p :: rest, eh, dyn =>
    let eh2 := if p.p_type == PT_GNU_EH_FRAME then some p else eh
    let dyn2 := if p.p_type == PT_DYNAMIC then true else dyn
    if eh2.isSome && dyn2 then (eh2, dyn2) else scanPhdrs rest eh2 dyn2

/-- The `load_info` filled in by `add_module` from a scanned image: header
address relative to the image load address, header size, dynamic flag; the
table location fields stay zero (the locator fallback will run). -/
def mkScanLinfo (info : PhdrInfo) (eh : PhdrEntry) (dyn : Bool) : LoadInfo :=
  LoadInfo.mk info.addr (info.addr + eh.p_vaddr) eh.p_memsz 0 0 dyn

/-- Result of a population step or run: the callback / function status and
the registry state, or a crash propagated from the resolver. -/
inductive AddOutcome where
  | ret (status : Int) (mods : KunwindProcModules)
  | crash
deriving DecidableEq, Inhabited

/-- `add_module` (the `iterate_phdr` callback): scan the program headers; no
unwind-header segment means return 0 without touching the registry; otherwise
`kmalloc` a module (`-ENOMEM` propagated on failure), resolve it, free and
drop it on resolution failure while still returning 0, and on success link it
at the tail of the registry list. -/
def add_module (env : Env) (allocOk : Bool) (info : PhdrInfo)
    (mods : KunwindProcModules) : AddOutcome :=
  match scanPhdrs info.phdr none false with
  | (none, _) => AddOutcome.ret 0 mods
  | (some ehPhdr, dynamic) =>
    if allocOk then
      match (init_kunwind_stp_module env (mkScanLinfo info ehPhdr dynamic) mods.compat).1 with
      | InitOutcome.crash => AddOutcome.crash
      | InitOutcome.ret err m =>
        if err ≠ 0 then AddOutcome.ret 0 mods
        else
          AddOutcome.ret 0
            (KunwindProcModules.mk (mods.stp_modules ++ [m]) mods.unw_cache mods.compat)
    else AddOutcome.ret (-ENOMEM) mods

/-- `init_modules_from_task`.
Modelled from the spec: the external `iterate_phdr` collaborator walks the
target's loaded segment sets in order, invokes the callback once per set and
stops early when a callback returns nonzero status (its code is not under
`src/`; this is its contracted behavior).  Each image carries its own
external-call environment and module-allocation outcome. -/
def init_modules_from_task :
    List (PhdrInfo × Env × Bool) → KunwindProcModules → AddOutcome
  | [], mods => AddOutcome.ret 0 mods
  | (info, env, allocOk) :: rest, mods =>
    match add_module env allocOk info mods with
    | AddOutcome.crash => AddOutcome.crash
    | AddOutcome.ret status mods2 =>
      if status = 0 then init_modules_from_task rest mods2
      else AddOutcome.ret status mods2

/-! ## Hint-based population (`init_modules_from_proc_info`) -/

/-- `init_modules_from_proc_info`: for each supplied `load_info` hint (paired
with the environment of its resolver run), `kmalloc` a module, resolve it,
and on failure free the unlinked module and return the error at once —
modules linked by earlier iterations stay in the registry.  On success link
the module at the tail and continue. -/
def init_modules_from_proc_info :
    List (LoadInfo × Env) → KunwindProcModules → AddOutcome
  | [], mods => AddOutcome.ret 0 mods
  | (linfo, env) :: rest, mods =>
    match (init_kunwind_stp_module env linfo mods.compat).1 with
    | InitOutcome.crash => AddOutcome.crash
    | InitOutcome.ret err m =>
      if err ≠ 0 then AddOutcome.ret err mods
      else
        init_modules_from_proc_info rest
          (KunwindProcModules.mk (mods.stp_modules ++ [m]) mods.unw_cache mods.compat)

/-! ## Derived geometric predicates -/

/-- Overlap of two modules' process-relative ranges
`[base, base + npages * PAGE_SIZE)`. -/
def rangesOverlap (m n : KunwindModule) : Prop :=
  m.base < n.base + n.npages * PAGE_SIZE ∧ n.base < m.base + m.npages * PAGE_SIZE

instance (m n : KunwindModule) : Decidable (rangesOverlap m n) := by
  unfold rangesOverlap; exact inferInstance

/-- Disjointness of two memory areas. -/
def vmaDisjoint (v w : Vma) : Prop :=
  v.vm_end ≤ w.vm_start ∨ w.vm_end ≤ v.vm_start

instance (v w : Vma) : Decidable (vmaDisjoint v w) := by
  unfold vmaDisjoint; exact inferInstance

/-- A module's range lies inside a memory area. -/
def moduleInVma (m : KunwindModule) (v : Vma) : Prop :=
  v.vm_start ≤ m.base ∧ m.base + m.npages * PAGE_SIZE ≤ v.vm_end

instance (m : KunwindModule) (v : Vma) : Decidable (moduleInVma m v) := by
  unfold moduleInVma; exact inferInstance

/-- Well-formedness of the cache hash table: every linked entry sits in the
bucket of its own pc, exactly how `unw_cache_add_entry` links entries.  This
is the reachable-state invariant of `mods->unw_cache`. -/
def cacheWF (h : Nat → Nat) (cache : List UnwCacheEntry) : Prop :=
  ∀ e ∈ cache, e.slot = h e.frame.pc

instance (h : Nat → Nat) (cache : List UnwCacheEntry) : Decidable (cacheWF h cache) := by
  unfold cacheWF; exact inferInstance

/-! ## Concrete sample targets used by the theorems below -/

/-- A two-page memory area `[0x1000, 0x3000)` of the sample target. -/
def vmaA : Vma := Vma.mk 0x1000 0x3000

/-- A two-page area `[0x8000, 0xa000)`, disjoint from `vmaA`. -/
def vmaB : Vma := Vma.mk 0x8000 0xa000

/-- Hint for an image in `vmaA` with an explicit table location. -/
def linfoA : LoadInfo := LoadInfo.mk 0x1000 0x1000 0x100 0x2000 0x100 true

/-- Hint for an image in `vmaB` with an explicit table location. -/
def linfoB : LoadInfo := LoadInfo.mk 0x8000 0x8000 0x100 0x9000 0x100 false

/-- Hint whose header address `0x5000` no sample area covers. -/
def linfoWrong : LoadInfo := LoadInfo.mk 0x5000 0x5000 0x100 0x9000 0x100 false

/-- Environment in which every external call for `linfoA` succeeds: both
pages pinned, probe words agree. -/
def envA : Env := Env.mk [vmaA] true 2 true 0 default false 5 5

/-- Fully successful environment for `linfoB`. -/
def envB : Env := Env.mk [vmaB] true 2 true 0 default false 7 7

/-- Like `envA` but the direct `get_user` probe faults. -/
def envFault : Env := Env.mk [vmaA] true 2 true 0 default true 5 5

/-- Like `envA` but `vmap` fails. -/
def envVmapFail : Env := Env.mk [vmaA] true 2 false 0 default false 5 5

/-- Like `envA` but the word read directly (5) differs from the word seen
through the fresh mapping (7): the mismatch-probe case. -/
def envMismatch : Env := Env.mk [vmaA] true 2 true 0 default false 5 7

/-- Like `envA` but the pin obtains only 1 of the 2 requested pages. -/
def envPinOne : Env := Env.mk [vmaA] true 1 true 0 default false 5 5

/-- A target with no memory areas at all. -/
def envNoVma : Env := Env.mk [] true 2 true 0 default false 5 5

/-- A target whose only area is `vmaB`, lying wholly above `linfoWrong`. -/
def envWrongRegion : Env := Env.mk [vmaB] true 2 true 0 default false 5 5

/-- The module a successful resolution of `linfoA` in `envA` produces. -/
def modA : KunwindModule :=
  KunwindModule.mk 0x1000 2 (UnwSection.mk 0x1000 0x100 0)
    (UnwSection.mk 0x2000 0x100 0x1000) true

/-- The module a successful resolution of `linfoB` in `envB` produces. -/
def modB : KunwindModule :=
  KunwindModule.mk 0x8000 2 (UnwSection.mk 0x8000 0x100 0)
    (UnwSection.mk 0x9000 0x100 0x1000) false

/-- A scanned image loaded at `0x1000` exposing one unwind-header phdr. -/
def infoA : PhdrInfo := PhdrInfo.mk 0x1000 [PhdrEntry.mk PT_GNU_EH_FRAME 0 0x100]

/-- A scanned image loaded at `0x8000` exposing one unwind-header phdr. -/
def infoB : PhdrInfo := PhdrInfo.mk 0x8000 [PhdrEntry.mk PT_GNU_EH_FRAME 0 0x100]

/-- The module scan-based resolution of `infoA` in `envA` produces (table
section written by the locator, here its `default` stand-in). -/
def mScanA : KunwindModule :=
  KunwindModule.mk 0x1000 2 (UnwSection.mk 0x1000 0x100 0) default false

/-- The module scan-based resolution of `infoB` in `envB` produces. -/
def mScanB : KunwindModule :=
  KunwindModule.mk 0x8000 2 (UnwSection.mk 0x8000 0x100 0) default false

/-! ## Theorems -/


/-- `unw_cache_add_entry` preserves the bucket invariant. -/
theorem cacheWF_add (h : Nat → Nat) (allocOk : Bool) (cache : List UnwCacheEntry)
    (frame : TdepFrame) (hw : cacheWF h cache) :
    cacheWF h (unw_cache_add_entry h allocOk cache frame) := by
  unfold unw_cache_add_entry
  cases hf : unw_cache_find_entry h cache frame.pc with
  | some e => exact hw
  | none =>
    cases allocOk with
    | false => simpa using hw
    | true =>
      intro e he
      rcases List.mem_cons.mp (by simpa using he) with h1 | h1
      · subst h1; rfl
      · exact hw e h1

/-- Claim C10: cache lookup postcondition.  On a well-formed table (every
entry linked in the bucket of its own pc, as `unw_cache_add_entry` does),
`unw_cache_find_entry` returns some linked entry whose stored frame pc equals
the key pc whenever one is present, and returns NULL exactly when no linked
entry carries that pc; the match is decided by pc equality alone. -/
theorem unw_cache_find_entry_post (h : Nat → Nat) (cache : List UnwCacheEntry)
    (keyPc : Nat) (wf : cacheWF h cache) :
    (∀ e, unw_cache_find_entry h cache keyPc = some e →
      e ∈ cache ∧ e.frame.pc = keyPc) ∧
    (unw_cache_find_entry h cache keyPc = none ↔
      ∀ e ∈ cache, e.frame.pc ≠ keyPc) := by
  constructor
  · intro e he
    unfold unw_cache_find_entry at he
    have h1 := List.find?_some he
    have h2 := List.mem_filter.mp (List.mem_of_find?_eq_some he)
    have h3 : keyPc = e.frame.pc := by simpa using h1
    exact ⟨h2.1, h3.symm⟩
  · unfold unw_cache_find_entry
    rw [List.find?_eq_none]
    constructor
    · intro hall e hmem hpc
      have hf : e ∈ cache.filter (fun x => x.slot == h keyPc) :=
        List.mem_filter.mpr ⟨hmem, by simp [wf e hmem, hpc]⟩
      exact hall e hf (by simp [hpc])
    · intro hnone e hmem
      have h2 := List.mem_filter.mp hmem
      simp only [beq_iff_eq]
      intro hEq
      exact hnone e h2.1 hEq.symm

/-- Witness for C10 at a concrete well-formed two-entry cache. -/
theorem unw_cache_find_entry_post_witness :
    (∀ e, unw_cache_find_entry (fun x => x % 8)
        [UnwCacheEntry.mk (TdepFrame.mk 5 10) (5 % 8),
         UnwCacheEntry.mk (TdepFrame.mk 13 11) (13 % 8)] 13 = some e →
      e ∈ [UnwCacheEntry.mk (TdepFrame.mk 5 10) (5 % 8),
           UnwCacheEntry.mk (TdepFrame.mk 13 11) (13 % 8)] ∧ e.frame.pc = 13) ∧
    (unw_cache_find_entry (fun x => x % 8)
        [UnwCacheEntry.mk (TdepFrame.mk 5 10) (5 % 8),
         UnwCacheEntry.mk (TdepFrame.mk 13 11) (13 % 8)] 13 = none ↔
      ∀ e ∈ [UnwCacheEntry.mk (TdepFrame.mk 5 10) (5 % 8),
             UnwCacheEntry.mk (TdepFrame.mk 13 11) (13 % 8)], e.frame.pc ≠ 13) :=
  unw_cache_find_entry_post (fun x => x % 8)
    [UnwCacheEntry.mk (TdepFrame.mk 5 10) (5 % 8),
     UnwCacheEntry.mk (TdepFrame.mk 13 11) (13 % 8)] 13 (by decide)

/-- Claim C1 counterexample: the literal claim quantifies over every registry
and unconditionally concludes `find(ip) = A`.  It fails (a) on a registry
already holding an entry for the pc — both inserts are no-ops and `find`
returns the pre-existing value, not A — and (b) when the first insert's
allocation fails silently, in which case the second insert does link B and
`find` returns B. -/
theorem unw_cache_add_idempotent_cex :
    ((unw_cache_find_entry (fun x => x % 8)
        (unw_cache_add_entry (fun x => x % 8) true
          (unw_cache_add_entry (fun x => x % 8) true
            [UnwCacheEntry.mk (TdepFrame.mk 5 99) (5 % 8)] (TdepFrame.mk 5 1))
          (TdepFrame.mk 5 2)) 5
      = some (UnwCacheEntry.mk (TdepFrame.mk 5 99) (5 % 8))) ∧
     TdepFrame.mk 5 99 ≠ TdepFrame.mk 5 1) ∧
    ((unw_cache_find_entry (fun x => x % 8)
        (unw_cache_add_entry (fun x => x % 8) true
          (unw_cache_add_entry (fun x => x % 8) false [] (TdepFrame.mk 5 1))
          (TdepFrame.mk 5 2)) 5
      = some (UnwCacheEntry.mk (TdepFrame.mk 5 2) (5 % 8))) ∧
     TdepFrame.mk 5 2 ≠ TdepFrame.mk 5 1) := by
  decide

/-- Claim C1 (amended): on a registry with no entry for the pc, after
`insert(ip, A)` whose allocation succeeds, a later `insert(ip, B)` with
`B.pc = ip` is a no-op — the table is bit-for-bit unchanged, so no entry is
mutated in place — and `find(ip)` returns the entry holding A (first writer
wins). -/
theorem unw_cache_add_first_writer_wins (h : Nat → Nat)
    (cache : List UnwCacheEntry) (A B : TdepFrame) (allocB : Bool)
    (hfresh : unw_cache_find_entry h cache A.pc = none)
    (hpc : B.pc = A.pc) (hne : B ≠ A) :
    unw_cache_add_entry h allocB (unw_cache_add_entry h true cache A) B =
      unw_cache_add_entry h true cache A ∧
    ∃ e, unw_cache_find_entry h
        (unw_cache_add_entry h allocB (unw_cache_add_entry h true cache A) B)
        A.pc = some e ∧ e.frame = A := by
  have hc1 : unw_cache_add_entry h true cache A =
      UnwCacheEntry.mk A (h A.pc) :: cache := by
    unfold unw_cache_add_entry
    rw [hfresh]
    simp
  have hfind : unw_cache_find_entry h (UnwCacheEntry.mk A (h A.pc) :: cache) A.pc
      = some (UnwCacheEntry.mk A (h A.pc)) := by
    unfold unw_cache_find_entry
    simp [List.filter_cons]
  have hfindB : unw_cache_find_entry h (UnwCacheEntry.mk A (h A.pc) :: cache) B.pc
      = some (UnwCacheEntry.mk A (h A.pc)) := by
    rw [hpc]; exact hfind
  have hnoop : unw_cache_add_entry h allocB
      (UnwCacheEntry.mk A (h A.pc) :: cache) B =
      UnwCacheEntry.mk A (h A.pc) :: cache := by
    unfold unw_cache_add_entry
    rw [hfindB]
  rw [hc1, hnoop]
  exact ⟨rfl, UnwCacheEntry.mk A (h A.pc), hfind, rfl⟩

/-- Witness for the amended C1 on an initially empty registry. -/
theorem unw_cache_add_first_writer_wins_witness :
    unw_cache_add_entry (fun x => x) true
        (unw_cache_add_entry (fun x => x) true [] (TdepFrame.mk 5 1))
        (TdepFrame.mk 5 2) =
      unw_cache_add_entry (fun x => x) true [] (TdepFrame.mk 5 1) ∧
    ∃ e, unw_cache_find_entry (fun x => x)
        (unw_cache_add_entry (fun x => x) true
          (unw_cache_add_entry (fun x => x) true [] (TdepFrame.mk 5 1))
          (TdepFrame.mk 5 2)) 5 = some e ∧ e.frame = TdepFrame.mk 5 1 :=
  unw_cache_add_first_writer_wins (fun x => x) [] (TdepFrame.mk 5 1)
    (TdepFrame.mk 5 2) true (by decide) (by decide) (by decide)

/-- Characterization of the unlink-and-defer loop of `unw_cache_clear`:
starting from a state whose visible list is exactly the iteration list, the
loop empties the visible list, queues every entry for deferred freeing in
order, and logs one unlink per entry. -/
theorem clear_fold_spec (l : List UnwCacheEntry) (st : RcuState)
    (hv : st.visible = l) :
    l.foldl (fun s e => call_rcu (hash_del_rcu s e) e) st =
      RcuState.mk [] (st.pending ++ l)
        (st.trace ++ l.map (fun e => RcuEvent.unlink e.frame.pc)) := by
  induction l generalizing st with
  | nil =>
    cases st with
    | mk v p tr =>
      have hv2 : v = [] := hv
      subst hv2
      simp
  | cons a t ih =>
    cases st with
    | mk v p tr =>
      have hv2 : v = a :: t := hv
      subst hv2
      simp only [List.foldl_cons]
      have hstep : call_rcu (hash_del_rcu (RcuState.mk (a :: t) p tr) a) a =
          RcuState.mk t (p ++ [a]) (tr ++ [RcuEvent.unlink a.frame.pc]) := by
        simp [call_rcu, hash_del_rcu, eraseEntry]
      rw [hstep, ih (RcuState.mk t (p ++ [a]) (tr ++ [RcuEvent.unlink a.frame.pc])) rfl]
      simp

/-- Claim C8: `unw_cache_clear` unlinks every entry — afterwards `find`
misses for every instruction pointer — and its event trace is all the
unlinks, then the full reader-drain barrier (`synchronize_rcu`, which the
function waits on before returning), and only then the deferred frees: no
entry's memory is freed before the barrier behind which every in-flight
reader has drained. -/
theorem unw_cache_clear_drains (cache : List UnwCacheEntry) :
    (∀ h keyPc, unw_cache_find_entry h (unw_cache_clear cache).visible keyPc = none) ∧
    ∃ pre post,
      (unw_cache_clear cache).trace = pre ++ RcuEvent.gracePeriod :: post ∧
      (∀ ev ∈ pre, ∃ p, ev = RcuEvent.unlink p) ∧
      (∀ ev ∈ post, ∃ p, ev = RcuEvent.free p) ∧
      (∀ e ∈ cache, RcuEvent.unlink e.frame.pc ∈ pre ∧
        RcuEvent.free e.frame.pc ∈ post) := by
  have hfold := clear_fold_spec cache (RcuState.mk cache [] []) rfl
  have hclear : unw_cache_clear cache =
      RcuState.mk [] []
        ((cache.map (fun e => RcuEvent.unlink e.frame.pc)) ++
          RcuEvent.gracePeriod :: cache.map (fun e => RcuEvent.free e.frame.pc)) := by
    unfold unw_cache_clear
    rw [hfold]
    simp [synchronize_rcu]
  rw [hclear]
  constructor
  · intro h keyPc
    simp [unw_cache_find_entry]
  · refine ⟨cache.map (fun e => RcuEvent.unlink e.frame.pc),
      cache.map (fun e => RcuEvent.free e.frame.pc), rfl, ?_, ?_, ?_⟩
    · intro ev hev
      rcases List.mem_map.mp hev with ⟨e, _, he⟩
      exact ⟨e.frame.pc, he.symm⟩
    · intro ev hev
      rcases List.mem_map.mp hev with ⟨e, _, he⟩
      exact ⟨e.frame.pc, he.symm⟩
    · intro e he
      exact ⟨List.mem_map.mpr ⟨e, he, rfl⟩, List.mem_map.mpr ⟨e, he, rfl⟩⟩

/-- Claim C7: resource balance on failure.  Every execution of
`init_kunwind_stp_module` that returns a nonzero result has released every
resource it acquired before returning: pages pinned equal pages released,
descriptor arrays allocated equal arrays freed, and mappings established
equal mappings torn down. -/
theorem init_failure_releases_all (env : Env) (linfo : LoadInfo) (compat : Bool)
    (res : Int) (mod : KunwindModule) (log : ResLog)
    (h : init_kunwind_stp_module env linfo compat = (InitOutcome.ret res mod, log))
    (hres : res ≠ 0) :
    log.pinned = log.put ∧ log.descAlloc = log.descFree ∧
      log.vmapped = log.vunmapped := by
  unfold init_kunwind_stp_module at h
  split at h
  · exact absurd h (by simp)
  · by_cases hk : env.kmalloc_pages_ok = false
    · rw [if_pos hk] at h
      obtain ⟨⟨hr, hm⟩, hl⟩ := by
        simpa only [Prod.mk.injEq, InitOutcome.ret.injEq] using h
      subst hl; exact ⟨rfl, rfl, rfl⟩
    · rw [if_neg hk] at h
      by_cases hg : env.gup_result < 0
      · rw [if_pos hg] at h
        obtain ⟨⟨hr, hm⟩, hl⟩ := by
          simpa only [Prod.mk.injEq, InitOutcome.ret.injEq] using h
        subst hl; exact ⟨rfl, rfl, rfl⟩
      · rw [if_neg hg] at h
        by_cases hv2 : env.vmap_ok = false
        · rw [if_pos hv2] at h
          obtain ⟨⟨hr, hm⟩, hl⟩ := by
            simpa only [Prod.mk.injEq, InitOutcome.ret.injEq] using h
          subst hl; exact ⟨rfl, rfl, rfl⟩
        · rw [if_neg hv2] at h
          by_cases he1 : linfo.eh_frame_addr ≠ 0 ∧ linfo.eh_frame_size ≠ 0
          · rw [if_pos he1] at h
            dsimp only at h
            by_cases hgu : env.get_user_fault = true
            · rw [if_pos hgu] at h
              obtain ⟨⟨hr, hm⟩, hl⟩ := by
                simpa only [Prod.mk.injEq, InitOutcome.ret.injEq] using h
              subst hl; exact ⟨rfl, rfl, rfl⟩
            · rw [if_neg hgu] at h
              by_cases hw : env.get_user_word ≠ env.mapped_word
              · rw [if_pos hw] at h
                obtain ⟨⟨hr, hm⟩, hl⟩ := by
                  simpa only [Prod.mk.injEq, InitOutcome.ret.injEq] using h
                exact absurd hr.symm hres
              · rw [if_neg hw] at h
                obtain ⟨⟨hr, hm⟩, hl⟩ := by
                  simpa only [Prod.mk.injEq, InitOutcome.ret.injEq] using h
                exact absurd hr.symm hres
          · rw [if_neg he1] at h
            by_cases he2 : env.ehf_locator_res ≠ 0
            · rw [if_pos he2] at h
              obtain ⟨⟨hr, hm⟩, hl⟩ := by
                simpa only [Prod.mk.injEq, InitOutcome.ret.injEq] using h
              subst hl; exact ⟨rfl, rfl, rfl⟩
            · rw [if_neg he2] at h
              dsimp only at h
              by_cases hgu : env.get_user_fault = true
              · rw [if_pos hgu] at h
                obtain ⟨⟨hr, hm⟩, hl⟩ := by
                  simpa only [Prod.mk.injEq, InitOutcome.ret.injEq] using h
                subst hl; exact ⟨rfl, rfl, rfl⟩
              · rw [if_neg hgu] at h
                by_cases hw : env.get_user_word ≠ env.mapped_word
                · rw [if_pos hw] at h
                  obtain ⟨⟨hr, hm⟩, hl⟩ := by
                    simpa only [Prod.mk.injEq, InitOutcome.ret.injEq] using h
                  exact absurd hr.symm hres
                · rw [if_neg hw] at h
                  obtain ⟨⟨hr, hm⟩, hl⟩ := by
                    simpa only [Prod.mk.injEq, InitOutcome.ret.injEq] using h
                  exact absurd hr.symm hres

/-- Witness for C7 at the concrete vmap-failure run in `envVmapFail`. -/
theorem init_failure_releases_all_witness :
    (ResLog.mk 1 1 2 2 0 0).pinned = (ResLog.mk 1 1 2 2 0 0).put ∧
    (ResLog.mk 1 1 2 2 0 0).descAlloc = (ResLog.mk 1 1 2 2 0 0).descFree ∧
    (ResLog.mk 1 1 2 2 0 0).vmapped = (ResLog.mk 1 1 2 2 0 0).vunmapped :=
  init_failure_releases_all envVmapFail linfoA false 2 default
    (ResLog.mk 1 1 2 2 0 0) (by decide) (by decide)

/-- Claim C2 (code bug): at the mismatch probe (direct word 5, mapped word
7), `init_kunwind_stp_module` does release every resource (pins put, mapping
torn down, descriptor array freed) but, because `res` still holds the
successful `get_user` result 0 when the code jumps to `out_vunmap`, it
returns 0: the caller sees success and links the torn-down module instead of
receiving a mapping-mismatch error. -/
theorem init_mismatch_returns_success_bug :
    init_kunwind_stp_module envMismatch linfoA false =
      (InitOutcome.ret 0 modA, ResLog.mk 1 1 2 2 1 1) ∧
    init_modules_from_proc_info [(linfoA, envMismatch)]
        (init_proc_unwind_info false) =
      AddOutcome.ret 0 (KunwindProcModules.mk [modA] [] false) := by
  decide

/-- Claim C4 (code bug): a partial pin is not treated as failure.  With the
two-page area `vmaA` and a pin that obtains only one page, resolution
proceeds: the obtained count 1 becomes the module's mapped page count and
the function returns 0.  (The FIXME above the pin call concedes the missing
pinned-size check.) -/
theorem init_partial_pin_proceeds_bug :
    init_kunwind_stp_module envPinOne linfoA false =
      (InitOutcome.ret 0
          (KunwindModule.mk 0x1000 1 (UnwSection.mk 0x1000 0x100 0)
            (UnwSection.mk 0x2000 0x100 0x1000) true),
        ResLog.mk 1 0 1 0 1 0) ∧
    1 < vma_pages vmaA := by
  decide

/-- Claim C5 (code bug): the `find_vma` result is used unchecked.  With no
area covering the header address, the NULL return is dereferenced by
`vma_pages` (`crash`); with only the unrelated higher area `vmaB` and header
address `0x5000`, resolution silently proceeds against that non-covering
area (module base `0x8000`, header offset underflowed) and returns success.
No `NoSuchRegion`-style failure exists on either path. -/
theorem init_unchecked_find_vma_bug :
    (init_kunwind_stp_module envNoVma linfoA false).1 = InitOutcome.crash ∧
    (init_kunwind_stp_module envWrongRegion linfoWrong false).1 =
      InitOutcome.ret 0
        (KunwindModule.mk 0x8000 2
          (UnwSection.mk 0x5000 0x100 (ULONG_MOD - 0x3000))
          (UnwSection.mk 0x9000 0x100 0x1000) false) := by
  decide

/-- Claim C6: scan-based population degrades gracefully.  A segment set with
no unwind-header entry is skipped — the callback returns status 0 and the
registry is untouched — so iteration proceeds with the remaining images; and
an image whose resolution fails is discarded (no registry entry, the module
freed) with the callback still returning 0, so scanning continues over the
rest instead of propagating the failure. -/
theorem add_module_graceful (env : Env) (allocOk : Bool) (info : PhdrInfo)
    (mods : KunwindProcModules) (rest : List (PhdrInfo × Env × Bool)) :
    ((scanPhdrs info.phdr none false).1 = none →
      add_module env allocOk info mods = AddOutcome.ret 0 mods ∧
      init_modules_from_task ((info, env, allocOk) :: rest) mods =
        init_modules_from_task rest mods) ∧
    (∀ eh dyn err m,
      scanPhdrs info.phdr none false = (some eh, dyn) →
      allocOk = true →
      (init_kunwind_stp_module env (mkScanLinfo info eh dyn) mods.compat).1 =
        InitOutcome.ret err m →
      err ≠ 0 →
      add_module env allocOk info mods = AddOutcome.ret 0 mods ∧
      init_modules_from_task ((info, env, allocOk) :: rest) mods =
        init_modules_from_task rest mods) := by
  have htask : add_module env allocOk info mods = AddOutcome.ret 0 mods →
      init_modules_from_task ((info, env, allocOk) :: rest) mods =
        init_modules_from_task rest mods := by
    intro hadd
    have hstep : init_modules_from_task ((info, env, allocOk) :: rest) mods =
        (match add_module env allocOk info mods with
          | AddOutcome.crash => AddOutcome.crash
          | AddOutcome.ret status mods2 =>
            if status = 0 then init_modules_from_task rest mods2
            else AddOutcome.ret status mods2) := rfl
    rw [hstep, hadd]
    simp
  constructor
  · intro hnone
    rcases hs : scanPhdrs info.phdr none false with ⟨eh, dyn⟩
    rw [hs] at hnone
    simp only [] at hnone
    subst hnone
    have hadd : add_module env allocOk info mods = AddOutcome.ret 0 mods := by
      unfold add_module
      rw [hs]
    exact ⟨hadd, htask hadd⟩
  · intro eh dyn err m hs halloc hinit herr
    have hadd : add_module env allocOk info mods = AddOutcome.ret 0 mods := by
      unfold add_module
      rw [hs]
      subst halloc
      simp only [if_true]
      rw [hinit]
      simp [herr]
    exact ⟨hadd, htask hadd⟩

/-- Witness for C6: an image with no unwind-header phdr is skipped with
status 0, and an image whose resolution faults at the probe is dropped with
status 0 and an unchanged registry. -/
theorem add_module_graceful_witness :
    add_module envA true (PhdrInfo.mk 0x1000 []) (init_proc_unwind_info false) =
      AddOutcome.ret 0 (init_proc_unwind_info false) ∧
    add_module envFault true
        (PhdrInfo.mk 0x1000 [PhdrEntry.mk PT_GNU_EH_FRAME 0 0x100])
        (init_proc_unwind_info false) =
      AddOutcome.ret 0 (init_proc_unwind_info false) :=
  ⟨((add_module_graceful envA true (PhdrInfo.mk 0x1000 [])
      (init_proc_unwind_info false) []).1 (by decide)).1,
   ((add_module_graceful envFault true
      (PhdrInfo.mk 0x1000 [PhdrEntry.mk PT_GNU_EH_FRAME 0 0x100])
      (init_proc_unwind_info false) []).2
      (PhdrEntry.mk PT_GNU_EH_FRAME 0 0x100) false (-14)
      (KunwindModule.mk 0x1000 2 (UnwSection.mk 0x1000 0x100 0) default false)
      (by decide) rfl (by decide) (by decide)).1⟩

/-- Claim C3 counterexample: hint-based population is not atomic on error.
With two hints of which the second fails at the probe (`get_user` faults,
error `-EFAULT`), the call propagates `-14` but the module resolved from the
first hint remains linked in the registry: one module, not zero. -/
theorem init_modules_from_proc_info_not_atomic_cex :
    init_modules_from_proc_info [(linfoA, envA), (linfoA, envFault)]
        (init_proc_unwind_info false) =
      AddOutcome.ret (-14) (KunwindProcModules.mk [modA] [] false) ∧
    (KunwindProcModules.mk [modA] [] false).stp_modules.length = 1 := by
  decide

/-- Claim C3 (amended): a failing hint's resolution error is propagated to
the caller at once — the failing hint's module is freed, nothing after it is
processed — but the modules of the successfully resolved prefix of the hint
list remain in the registry (the call is not rolled back). -/
theorem init_modules_from_proc_info_propagates (hints : List (LoadInfo × Env))
    (mods mods2 : KunwindProcModules) (err : Int)
    (h : init_modules_from_proc_info hints mods = AddOutcome.ret err mods2)
    (he : err ≠ 0) :
    ∃ pre p post ms mfail,
      hints = pre ++ p :: post ∧
      List.Forall₂ (fun q m =>
        initOutcome mods.compat q = InitOutcome.ret 0 m) pre ms ∧
      initOutcome mods.compat p = InitOutcome.ret err mfail ∧
      mods2.stp_modules = mods.stp_modules ++ ms := by
  induction hints generalizing mods with
  | nil =>
    simp only [init_modules_from_proc_info] at h
    obtain ⟨h1, h2⟩ := by simpa only [AddOutcome.ret.injEq] using h
    exact absurd h1.symm he
  | cons q rest ih =>
    obtain ⟨linfo, env⟩ := q
    simp only [init_modules_from_proc_info] at h
    cases hini : (init_kunwind_stp_module env linfo mods.compat).1 with
    | crash => rw [hini] at h; exact absurd h (by simp)
    | ret e m =>
      rw [hini] at h
      dsimp only at h
      by_cases hz : e ≠ 0
      · rw [if_pos hz] at h
        obtain ⟨h1, h2⟩ := by simpa only [AddOutcome.ret.injEq] using h
        subst h1
        refine ⟨[], (linfo, env), rest, [], m, rfl, List.Forall₂.nil, ?_, by simp [h2]⟩
        exact hini
      · rw [if_neg hz] at h
        have he0 : e = 0 := not_not.mp hz
        subst he0
        obtain ⟨pre, p, post, ms, mfail, h1, h2, h3, h4⟩ :=
          ih (KunwindProcModules.mk (mods.stp_modules ++ [m])
            mods.unw_cache mods.compat) h
        refine ⟨(linfo, env) :: pre, p, post, m :: ms, mfail, by rw [h1]; rfl,
          List.Forall₂.cons ?_ h2, h3, by simpa using h4⟩
        exact hini

/-- Witness for the amended C3 at the concrete two-hint run whose second
hint faults. -/
theorem init_modules_from_proc_info_propagates_witness :
    ∃ pre p post ms mfail,
      [(linfoA, envA), (linfoA, envFault)] = pre ++ p :: post ∧
      List.Forall₂ (fun q m =>
        initOutcome (init_proc_unwind_info false).compat q =
          InitOutcome.ret 0 m) pre ms ∧
      initOutcome (init_proc_unwind_info false).compat p =
        InitOutcome.ret (-14) mfail ∧
      (KunwindProcModules.mk [modA] [] false).stp_modules =
        (init_proc_unwind_info false).stp_modules ++ ms :=
  init_modules_from_proc_info_propagates [(linfoA, envA), (linfoA, envFault)]
    (init_proc_unwind_info false) (KunwindProcModules.mk [modA] [] false)
    (-14) (by decide) (by decide)

/-- Claim C9 counterexample: nothing enforces non-overlap.  Supplying the
same hint twice makes hint-based population succeed with two identical,
fully overlapping modules linked in the registry. -/
theorem registry_overlap_cex :
    init_modules_from_proc_info [(linfoA, envA), (linfoA, envA)]
        (init_proc_unwind_info false) =
      AddOutcome.ret 0 (KunwindProcModules.mk [modA, modA] [] false) ∧
    rangesOverlap modA modA := by
  refine ⟨by decide, ?_⟩
  unfold rangesOverlap
  decide

/-- Shape of a zero-result resolver run: either the degenerate vmap-failure
path returned the zero gup count together with the never-written default
module, or the run resolved some area and the module is based at its start
with at most its page span mapped. -/
theorem init_ret0_shape (env : Env) (linfo : LoadInfo) (compat : Bool)
    (m : KunwindModule) (log : ResLog)
    (h : init_kunwind_stp_module env linfo compat = (InitOutcome.ret 0 m, log)) :
    m = default ∨
    ∃ v, find_vma env.vmas linfo.eh_frame_hdr_ubuf = some v ∧
      m.base = v.vm_start ∧ m.npages ≤ vma_pages v := by
  unfold init_kunwind_stp_module at h
  split at h
  · exact absurd h (by simp)
  · rename_i xopt vma heq
    by_cases hk : env.kmalloc_pages_ok = false
    · rw [if_pos hk] at h
      obtain ⟨⟨hr, hm⟩, hl⟩ := by
        simpa only [Prod.mk.injEq, InitOutcome.ret.injEq] using h
      exact absurd hr (by decide)
    · rw [if_neg hk] at h
      by_cases hg : env.gup_result < 0
      · rw [if_pos hg] at h
        obtain ⟨⟨hr, hm⟩, hl⟩ := by
          simpa only [Prod.mk.injEq, InitOutcome.ret.injEq] using h
        rw [hr] at hg
        exact absurd hg (by decide)
      · rw [if_neg hg] at h
        by_cases hv2 : env.vmap_ok = false
        · rw [if_pos hv2] at h
          obtain ⟨⟨hr, hm⟩, hl⟩ := by
            simpa only [Prod.mk.injEq, InitOutcome.ret.injEq] using h
          exact Or.inl hm.symm
        · rw [if_neg hv2] at h
          by_cases he1 : linfo.eh_frame_addr ≠ 0 ∧ linfo.eh_frame_size ≠ 0
          · rw [if_pos he1] at h
            dsimp only at h
            by_cases hgu : env.get_user_fault = true
            · rw [if_pos hgu] at h
              obtain ⟨⟨hr, hm⟩, hl⟩ := by
                simpa only [Prod.mk.injEq, InitOutcome.ret.injEq] using h
              exact absurd hr (by decide)
            · rw [if_neg hgu] at h
              by_cases hw : env.get_user_word ≠ env.mapped_word
              · rw [if_pos hw] at h
                obtain ⟨⟨hr, hm⟩, hl⟩ := by
                  simpa only [Prod.mk.injEq, InitOutcome.ret.injEq] using h
                refine Or.inr ⟨vma, heq, ?_, ?_⟩
                · rw [← hm]
                · rw [← hm]; exact min_le_left _ _
              · rw [if_neg hw] at h
                obtain ⟨⟨hr, hm⟩, hl⟩ := by
                  simpa only [Prod.mk.injEq, InitOutcome.ret.injEq] using h
                refine Or.inr ⟨vma, heq, ?_, ?_⟩
                · rw [← hm]
                · rw [← hm]; exact min_le_left _ _
          · rw [if_neg he1] at h
            by_cases he2 : env.ehf_locator_res ≠ 0
            · rw [if_pos he2] at h
              obtain ⟨⟨hr, hm⟩, hl⟩ := by
                simpa only [Prod.mk.injEq, InitOutcome.ret.injEq] using h
              exact absurd hr he2
            · rw [if_neg he2] at h
              dsimp only at h
              by_cases hgu : env.get_user_fault = true
              · rw [if_pos hgu] at h
                obtain ⟨⟨hr, hm⟩, hl⟩ := by
                  simpa only [Prod.mk.injEq, InitOutcome.ret.injEq] using h
                exact absurd hr (by decide)
              · rw [if_neg hgu] at h
                by_cases hw : env.get_user_word ≠ env.mapped_word
                · rw [if_pos hw] at h
                  obtain ⟨⟨hr, hm⟩, hl⟩ := by
                    simpa only [Prod.mk.injEq, InitOutcome.ret.injEq] using h
                  refine Or.inr ⟨vma, heq, ?_, ?_⟩
                  · rw [← hm]
                  · rw [← hm]; exact min_le_left _ _
                · rw [if_neg hw] at h
                  obtain ⟨⟨hr, hm⟩, hl⟩ := by
                    simpa only [Prod.mk.injEq, InitOutcome.ret.injEq] using h
                  refine Or.inr ⟨vma, heq, ?_, ?_⟩
                  · rw [← hm]
                  · rw [← hm]; exact min_le_left _ _

/-- A run of `init_modules_from_proc_info` that returns status 0 appended to
the registry exactly one module per hint, each the zero-result output of its
hint's resolver run, in hint order. -/
theorem init_modules_from_proc_info_ok (hints : List (LoadInfo × Env))
    (mods mods2 : KunwindProcModules)
    (h : init_modules_from_proc_info hints mods = AddOutcome.ret 0 mods2) :
    ∃ ms, mods2.stp_modules = mods.stp_modules ++ ms ∧
      List.Forall₂ (fun q m =>
        initOutcome mods.compat q = InitOutcome.ret 0 m) hints ms := by
  induction hints generalizing mods with
  | nil =>
    simp only [init_modules_from_proc_info] at h
    obtain ⟨h1, h2⟩ := by simpa only [AddOutcome.ret.injEq] using h
    subst h2
    exact ⟨[], by simp, List.Forall₂.nil⟩
  | cons q rest ih =>
    obtain ⟨linfo, env⟩ := q
    simp only [init_modules_from_proc_info] at h
    cases hini : (init_kunwind_stp_module env linfo mods.compat).1 with
    | crash => rw [hini] at h; exact absurd h (by simp)
    | ret e m =>
      rw [hini] at h
      dsimp only at h
      by_cases hz : e ≠ 0
      · rw [if_pos hz] at h
        obtain ⟨h1, h2⟩ := by simpa only [AddOutcome.ret.injEq] using h
        exact absurd h1 hz
      · rw [if_neg hz] at h
        have he0 : e = 0 := not_not.mp hz
        subst he0
        obtain ⟨ms, hms, hall⟩ :=
          ih (KunwindProcModules.mk (mods.stp_modules ++ [m])
            mods.unw_cache mods.compat) h
        refine ⟨m :: ms, by simpa using hms, List.Forall₂.cons ?_ hall⟩
        exact hini

/-- Transport of two elementwise relations sharing an index list into a
relation between the two image lists. -/
theorem forall2_of_forall2 {α β γ : Type} (R : α → β → Prop) (S : α → γ → Prop)
    (T : β → γ → Prop) (l1 : List α) (l2 : List β) (l3 : List γ)
    (h1 : List.Forall₂ R l1 l2) (h2 : List.Forall₂ S l1 l3)
    (himp : ∀ a b c, R a b → S a c → T b c) : List.Forall₂ T l2 l3 := by
  induction h1 generalizing l3 with
  | nil => cases h2; exact List.Forall₂.nil
  | cons hab hrest ih =>
    cases h2 with
    | cons hac hrest2 => exact List.Forall₂.cons (himp _ _ _ hab hac) (ih _ hrest2)

/-- Every left member of a `Forall₂` has a related right member. -/
theorem forall2_mem_right {β γ : Type} (T : β → γ → Prop) (l2 : List β)
    (l3 : List γ) (h : List.Forall₂ T l2 l3) (b : β) (hb : b ∈ l2) :
    ∃ c ∈ l3, T b c := by
  induction h with
  | nil => cases hb
  | cons hbc hrest ih =>
    rcases List.mem_cons.mp hb with h1 | h1
    · subst h1; exact ⟨_, List.mem_cons_self _ _, hbc⟩
    · obtain ⟨c, hc, hT⟩ := ih h1
      exact ⟨c, List.mem_cons_of_mem _ hc, hT⟩

/-- A module based at an area's start with at most the area's page span lies
inside the area (for a well-formed area). -/
theorem moduleInVma_of_le_pages (m : KunwindModule) (v : Vma)
    (hb : m.base = v.vm_start) (hn : m.npages ≤ vma_pages v)
    (hwf : v.vm_start ≤ v.vm_end) : moduleInVma m v := by
  unfold moduleInVma
  have h1 : m.npages * PAGE_SIZE ≤ vma_pages v * PAGE_SIZE :=
    Nat.mul_le_mul_right _ hn
  have h2 : vma_pages v * PAGE_SIZE ≤ v.vm_end - v.vm_start := by
    unfold vma_pages
    exact Nat.div_mul_le_self _ _
  omega

/-- The never-written default module has an empty range at address 0 and so
overlaps nothing. -/
theorem default_module_no_overlap (m : KunwindModule) :
    ¬ rangesOverlap m default ∧ ¬ rangesOverlap default m := by
  have hb : (default : KunwindModule).base = 0 := rfl
  have hn : (default : KunwindModule).npages = 0 := rfl
  unfold rangesOverlap
  rw [hb, hn]
  omega

/-- Modules each lying inside (or default next to) pairwise disjoint areas
have pairwise non-overlapping ranges. -/
theorem pairwise_of_contained (ms : List KunwindModule) (vmas : List Vma)
    (hc : List.Forall₂ (fun m v => moduleInVma m v ∨ m = default) ms vmas)
    (hd : vmas.Pairwise vmaDisjoint) :
    ms.Pairwise (fun m n => ¬ rangesOverlap m n) := by
  induction hc with
  | nil => exact List.Pairwise.nil
  | cons hmv hrest ih =>
    rename_i m v mtail vtail
    cases hd with
    | cons hdv hdrest =>
      refine List.Pairwise.cons ?_ (ih hdrest)
      intro n hn
      obtain ⟨w, hw, hnw⟩ := forall2_mem_right _ _ _ hrest n hn
      rcases hmv with hin | hdef
      · rcases hnw with hin2 | hdef2
        · have hdisj := hdv w hw
          unfold moduleInVma at hin hin2
          unfold vmaDisjoint at hdisj
          unfold rangesOverlap
          omega
        · subst hdef2
          exact (default_module_no_overlap m).1
      · subst hdef
        exact (default_module_no_overlap n).2

/-- Hint-path half of the non-overlap guarantee: when every hint's resolver
run resolves a well-formed memory area and those areas are pairwise disjoint,
a successful `init_modules_from_proc_info` run yields a registry in which no
two modules have overlapping `[base, base + npages * PAGE_SIZE)` ranges. -/
theorem init_modules_from_proc_info_no_overlap (compat : Bool)
    (hints : List (LoadInfo × Env)) (vmas : List Vma)
    (mods2 : KunwindProcModules)
    (h : init_modules_from_proc_info hints (init_proc_unwind_info compat) =
      AddOutcome.ret 0 mods2)
    (hv : List.Forall₂ (fun q v =>
      find_vma q.2.vmas q.1.eh_frame_hdr_ubuf = some v ∧
        v.vm_start ≤ v.vm_end) hints vmas)
    (hd : vmas.Pairwise vmaDisjoint) :
    mods2.stp_modules.Pairwise (fun m n => ¬ rangesOverlap m n) := by
  obtain ⟨ms, hms, hall⟩ := init_modules_from_proc_info_ok hints
    (init_proc_unwind_info compat) mods2 h
  have hcont : List.Forall₂ (fun m v => moduleInVma m v ∨ m = default) ms vmas := by
    refine forall2_of_forall2 _ _ _ hints ms vmas hall hv ?_
    intro q m v hqm hqv
    rcases hp : init_kunwind_stp_module q.2 q.1 compat with ⟨out, log⟩
    have hout : out = InitOutcome.ret 0 m := by
      have h2 := hqm
      rw [initOutcome] at h2
      dsimp only [init_proc_unwind_info] at h2
      rw [hp] at h2
      exact h2
    subst hout
    rcases init_ret0_shape q.2 q.1 compat m log hp with hdef | ⟨w, hwfind, hb, hn⟩
    · exact Or.inr hdef
    · have hww : w = v := by
        rw [hqv.1] at hwfind
        injection hwfind with hvw
        exact hvw.symm
      subst hww
      exact Or.inl (moduleInVma_of_le_pages m w hb hn hqv.2)
  have := pairwise_of_contained ms vmas hcont hd
  rw [hms]
  simpa using this

/-- Concrete instantiation of the hint-path half: two hints resolving the
disjoint areas `vmaA` and `vmaB` populate a registry whose two modules do
not overlap. -/
theorem init_modules_from_proc_info_no_overlap_witness :
    (KunwindProcModules.mk [modA, modB] [] false).stp_modules.Pairwise
      (fun m n => ¬ rangesOverlap m n) :=
  init_modules_from_proc_info_no_overlap false [(linfoA, envA), (linfoB, envB)]
    [vmaA, vmaB] (KunwindProcModules.mk [modA, modB] [] false)
    (by decide)
    (List.Forall₂.cons (by decide)
      (List.Forall₂.cons (by decide) List.Forall₂.nil))
    (by decide)

/-- A status-0 scan-based population run appended, per enumerated image,
either nothing (no unwind-header segment, or a swallowed resolution failure)
or the zero-result module of that image's resolver run over the scan-derived
`load_info`, in image order. -/
theorem init_modules_from_task_ok (images : List (PhdrInfo × Env × Bool))
    (mods mods2 : KunwindProcModules)
    (h : init_modules_from_task images mods = AddOutcome.ret 0 mods2) :
    ∃ oms : List (Option KunwindModule),
      mods2.stp_modules = mods.stp_modules ++ oms.reduceOption ∧
      List.Forall₂ (fun t om => ∀ m, om = some m →
        ∃ eh dyn, scanPhdrs t.1.phdr none false = (some eh, dyn) ∧
          (init_kunwind_stp_module t.2.1 (mkScanLinfo t.1 eh dyn) mods.compat).1 =
            InitOutcome.ret 0 m) images oms := by
  induction images generalizing mods with
  | nil =>
    simp only [init_modules_from_task] at h
    obtain ⟨h1, h2⟩ := by simpa only [AddOutcome.ret.injEq] using h
    subst h2
    exact ⟨[], by simp, List.Forall₂.nil⟩
  | cons t rest ih =>
    obtain ⟨info, env, allocOk⟩ := t
    simp only [init_modules_from_task] at h
    rcases hs : scanPhdrs info.phdr none false with ⟨ehOpt, dyn⟩
    cases ehOpt with
    | none =>
      have hadd : add_module env allocOk info mods = AddOutcome.ret 0 mods := by
        unfold add_module
        rw [hs]
      rw [hadd] at h
      dsimp only at h
      rw [if_pos rfl] at h
      obtain ⟨oms, hms, hall⟩ := ih mods h
      refine ⟨none :: oms, by simpa using hms, List.Forall₂.cons ?_ hall⟩
      intro m hm
      cases hm
    | some eh =>
      cases allocOk with
      | false =>
        have hadd : add_module env false info mods =
            AddOutcome.ret (-ENOMEM) mods := by
          unfold add_module
          rw [hs]
          simp
        rw [hadd] at h
        dsimp only at h
        rw [if_neg (by decide)] at h
        obtain ⟨h1, h2⟩ := by simpa only [AddOutcome.ret.injEq] using h
        exact absurd h1 (by decide)
      | true =>
        cases hini : (init_kunwind_stp_module env (mkScanLinfo info eh dyn)
            mods.compat).1 with
        | crash =>
          have hadd : add_module env true info mods = AddOutcome.crash := by
            unfold add_module
            rw [hs]
            simp only [if_true]
            rw [hini]
          rw [hadd] at h
          exact absurd h (by simp)
        | ret e m =>
          have hadd : add_module env true info mods =
              (if e ≠ 0 then AddOutcome.ret 0 mods
               else AddOutcome.ret 0 (KunwindProcModules.mk
                 (mods.stp_modules ++ [m]) mods.unw_cache mods.compat)) := by
            unfold add_module
            rw [hs]
            simp only [if_true]
            rw [hini]
          by_cases hz : e ≠ 0
          · rw [hadd, if_pos hz] at h
            dsimp only at h
            rw [if_pos rfl] at h
            obtain ⟨oms, hms, hall⟩ := ih mods h
            refine ⟨none :: oms, by simpa using hms, List.Forall₂.cons ?_ hall⟩
            intro m2 hm2
            cases hm2
          · rw [hadd, if_neg hz] at h
            dsimp only at h
            rw [if_pos rfl] at h
            have he0 : e = 0 := not_not.mp hz
            subst he0
            obtain ⟨oms, hms, hall⟩ := ih (KunwindProcModules.mk
              (mods.stp_modules ++ [m]) mods.unw_cache mods.compat) h
            refine ⟨some m :: oms, by simpa using hms,
              List.Forall₂.cons ?_ hall⟩
            intro m2 hm2
            injection hm2 with hm3
            subst hm3
            exact ⟨eh, dyn, hs, hini⟩

/-- Restriction of a guarded `Forall₂` over optional values to the present
values, against a sublist of the right-hand list. -/
theorem forall2_reduceOption_sublist {β γ : Type} (R : β → γ → Prop)
    (oms : List (Option β)) (l : List γ)
    (h : List.Forall₂ (fun om v => ∀ b, om = some b → R b v) oms l) :
    ∃ l2, l2.Sublist l ∧ List.Forall₂ R oms.reduceOption l2 := by
  induction h with
  | nil => exact ⟨[], List.Sublist.refl [], List.Forall₂.nil⟩
  | cons hov hrest ih =>
    rename_i om v omtail vtail
    obtain ⟨l2, hsub, hf2⟩ := ih
    cases om with
    | none =>
      refine ⟨l2, List.Sublist.cons v hsub, ?_⟩
      simpa using hf2
    | some b =>
      refine ⟨v :: l2, List.Sublist.cons₂ v hsub, ?_⟩
      simpa using List.Forall₂.cons (hov b rfl) hf2

/-- Claim C9 (amended): neither population routine checks overlap, so
non-overlap holds only under the address-space discipline that the resolved
regions are pairwise disjoint (as the regions of distinct loaded images
are).  Under it, both population paths — hint-based
(`init_modules_from_proc_info`) and scan-based (`add_module` driven over the
enumerated images, `init_modules_from_task`) — yield a registry in which no
two modules have overlapping `[base, base + npages * PAGE_SIZE)` ranges.
Hints resolving the same region (see the counterexample) break the
property. -/
theorem population_no_overlap :
    (∀ (compat : Bool) (hints : List (LoadInfo × Env)) (vmas : List Vma)
        (mods2 : KunwindProcModules),
      init_modules_from_proc_info hints (init_proc_unwind_info compat) =
        AddOutcome.ret 0 mods2 →
      List.Forall₂ (fun q v =>
        find_vma q.2.vmas q.1.eh_frame_hdr_ubuf = some v ∧
          v.vm_start ≤ v.vm_end) hints vmas →
      vmas.Pairwise vmaDisjoint →
      mods2.stp_modules.Pairwise (fun m n => ¬ rangesOverlap m n)) ∧
    (∀ (compat : Bool) (images : List (PhdrInfo × Env × Bool)) (vmas : List Vma)
        (mods2 : KunwindProcModules),
      init_modules_from_task images (init_proc_unwind_info compat) =
        AddOutcome.ret 0 mods2 →
      List.Forall₂ (fun t v => ∀ eh dyn,
        scanPhdrs t.1.phdr none false = (some eh, dyn) →
        find_vma t.2.1.vmas (mkScanLinfo t.1 eh dyn).eh_frame_hdr_ubuf = some v ∧
          v.vm_start ≤ v.vm_end) images vmas →
      vmas.Pairwise vmaDisjoint →
      mods2.stp_modules.Pairwise (fun m n => ¬ rangesOverlap m n)) := by
  constructor
  · intro compat hints vmas mods2 h hv hd
    exact init_modules_from_proc_info_no_overlap compat hints vmas mods2 h hv hd
  · intro compat images vmas mods2 h hv hd
    obtain ⟨oms, hms, hall⟩ := init_modules_from_task_ok images
      (init_proc_unwind_info compat) mods2 h
    have hcontO : List.Forall₂ (fun om v => ∀ m, om = some m →
        moduleInVma m v ∨ m = default) oms vmas := by
      refine forall2_of_forall2 _ _ _ images oms vmas hall hv ?_
      intro t om v hom hvv m hm
      obtain ⟨eh, dyn, hs, hinit⟩ := hom m hm
      obtain ⟨hfind, hwf⟩ := hvv eh dyn hs
      rcases hp : init_kunwind_stp_module t.2.1 (mkScanLinfo t.1 eh dyn) compat
        with ⟨out, log⟩
      have hout : out = InitOutcome.ret 0 m := by
        have h2 := hinit
        dsimp only [init_proc_unwind_info] at h2
        rw [hp] at h2
        exact h2
      subst hout
      rcases init_ret0_shape _ _ compat m log hp with hdef | ⟨w, hwfind, hb, hn⟩
      · exact Or.inr hdef
      · have hww : w = v := by
          rw [hfind] at hwfind
          injection hwfind with hvw
          exact hvw.symm
        subst hww
        exact Or.inl (moduleInVma_of_le_pages m w hb hn hwf)
    obtain ⟨vmas2, hsub, hcont⟩ := forall2_reduceOption_sublist _ oms vmas hcontO
    have hd2 : vmas2.Pairwise vmaDisjoint := List.Pairwise.sublist hsub hd
    have hpw := pairwise_of_contained oms.reduceOption vmas2 hcont hd2
    rw [hms]
    simpa using hpw

/-- Witness for the amended C9 on both population paths: two hints resolving
the disjoint areas `vmaA` and `vmaB`, and a scan over two images loaded in
those same areas, each populate a registry whose two modules do not
overlap. -/
theorem population_no_overlap_witness :
    (KunwindProcModules.mk [modA, modB] [] false).stp_modules.Pairwise
      (fun m n => ¬ rangesOverlap m n) ∧
    (KunwindProcModules.mk [mScanA, mScanB] [] false).stp_modules.Pairwise
      (fun m n => ¬ rangesOverlap m n) :=
  ⟨population_no_overlap.1 false [(linfoA, envA), (linfoB, envB)] [vmaA, vmaB]
      (KunwindProcModules.mk [modA, modB] [] false) (by decide)
      (List.Forall₂.cons (by decide)
        (List.Forall₂.cons (by decide) List.Forall₂.nil))
      (by decide),
   population_no_overlap.2 false [(infoA, envA, true), (infoB, envB, true)]
      [vmaA, vmaB]
      (KunwindProcModules.mk [mScanA, mScanB] [] false) (by decide)
      (List.Forall₂.cons
        (by
          intro eh dyn hscan
          have hs2 : (some (PhdrEntry.mk PT_GNU_EH_FRAME 0 0x100), false) =
              (some eh, dyn) := hscan
          injection hs2 with h1 h2
          injection h1 with h3
          subst h3
          subst h2
          exact ⟨by decide, by decide⟩)
        (List.Forall₂.cons
          (by
            intro eh dyn hscan
            have hs2 : (some (PhdrEntry.mk PT_GNU_EH_FRAME 0 0x100), false) =
                (some eh, dyn) := hscan
            injection hs2 with h1 h2
            injection h1 with h3
            subst h3
            subst h2
            exact ⟨by decide, by decide⟩)
          List.Forall₂.nil))
      (by decide)⟩
